import Mathlib

/-!
# Broadlink-CLI-SmartIR: verification of the learning-session core

Shallow embedding of the signal-acquisition and command-matrix-learning core
of the repository (src/helpers.py, src/climate.py, src/fan.py, src/light.py,
src/media.py), together with theorems settling the specification claims.

Modelling conventions:
* Python dicts are association lists (`alGet` / `alSet`); assignment to an
  existing key updates it in place, assignment to a fresh key appends it,
  and subscripting a missing key is a `KeyError` (modelled as `Option.none`).
* The adapter is abstracted as a stream of poll results; wall-clock time is
  discretized at the loop's own poll cadence (1 poll per second for the IR
  and frequency loops, 1 poll per 100 ms tick for the RF data loop), so a
  20-second deadline admits at most 20 (resp. 200) polls.
* Operator interaction is a finite script of `Attempt`s: each attempt is the
  outcome of one `async_learn` call (`none` = failed/timed out) together with
  the operator's lowercased reply to the following prompt.  Running off the
  end of the script is reported as `outOfScript` (the source would keep
  re-prompting forever).
* Byte strings are `List Nat` with values < 256 where it matters.
-/

/-- One round of operator interaction inside `_learnCommand`: the result of
`async_learn` (`none` = learning failed or timed out) and the operator's
lowercased input to the subsequent prompt. -/
structure Attempt where
  capture : Option String
  choice : String
deriving DecidableEq

/-- The scripted operator interaction for a learning pass. -/
abbrev Script := List Attempt

/-- Per-slot session outcome (spec §3 `SessionOutcome`). -/
inductive SlotOutcome
| saved (payload : String)
| skipped
| aborted
deriving DecidableEq

/-- Result of resolving one slot: the interaction script ran out, a dict
write raised `KeyError`, or the slot resolved with an outcome, an updated
config and the remaining script. -/
inductive StepResult (Cfg : Type)
| outOfScript
| keyError
| step (outcome : SlotOutcome) (cfg : Cfg) (rest : Script)

/-- Embeds `_learnCommand` / `_learnOffCommand` of ClimateDevice, FanDevice,
LightDevice and MediaDevice (they are behaviourally identical, differing only
in which matrix location an accepted payload is written to, abstracted here
as `write`).  On a failed capture the operator retries unless they answer
`n`, which aborts the slot; on a successful capture `s` skips (no write),
`n` relearns, and anything else writes the payload and saves. -/
def learnSlot {Cfg : Type} (write : Cfg → String → Option Cfg) (cfg : Cfg) :
    Script → StepResult Cfg
| [] => .outOfScript
| a :: rest =>
  match a.capture with
  | none => if a.choice = "n" then .step .aborted cfg rest else learnSlot write cfg rest
  | some cmd =>
    if a.choice = "s" then .step .skipped cfg rest
    else if a.choice = "n" then learnSlot write cfg rest
    else
      match write cfg cmd with
      | some cfg2 => .step (.saved cmd) cfg2 rest
      | none => .keyError

/-- One learnable slot: its path (the keys used for the matrix write, also
serving as the trace label) and the write action an accepted payload
performs on the config. -/
structure SlotSpec (Cfg : Type) where
  path : List String
  write : Cfg → String → Option Cfg

/-- Overall result of a device `learn` pass. -/
inductive LearnResult (Cfg : Type)
| completed (cfg : Cfg)
| failed
| keyError (path : List String)
| outOfScript
deriving DecidableEq

/-- A finished (or interrupted) pass: the visited slots with their outcomes,
the result, and the unconsumed remainder of the script. -/
structure RunOut (Cfg : Type) where
  trace : List (List String × SlotOutcome)
  result : LearnResult Cfg
  rest : Script
deriving DecidableEq

/-- Strict traversal, embedding the `learn` loops of ClimateDevice,
LightDevice and MediaDevice: each slot is resolved via `_learnCommand`, and a
`False` return (abort) makes `learn` return `None` immediately. -/
def runSlotsStrict {Cfg : Type} : List (SlotSpec Cfg) → Cfg → Script → RunOut Cfg
| [], cfg, script => ⟨[], .completed cfg, script⟩
| s :: slots, cfg, script =>
  match learnSlot s.write cfg script with
  | .outOfScript => ⟨[], .outOfScript, []⟩
  | .keyError => ⟨[], .keyError s.path, []⟩
  | .step (.saved p) cfg2 rest =>
    ⟨(s.path, .saved p) :: (runSlotsStrict slots cfg2 rest).trace,
      (runSlotsStrict slots cfg2 rest).result, (runSlotsStrict slots cfg2 rest).rest⟩
  | .step .skipped cfg2 rest =>
    ⟨(s.path, .skipped) :: (runSlotsStrict slots cfg2 rest).trace,
      (runSlotsStrict slots cfg2 rest).result, (runSlotsStrict slots cfg2 rest).rest⟩
  | .step .aborted _ rest => ⟨[(s.path, .aborted)], .failed, rest⟩

/-- Lenient traversal, embedding `FanDevice.learn`: the boolean returned by
`_learnCommand` is ignored, so aborted slots are absorbed and the loop always
proceeds to the next slot. -/
def runSlotsLenient {Cfg : Type} : List (SlotSpec Cfg) → Cfg → Script → RunOut Cfg
| [], cfg, script => ⟨[], .completed cfg, script⟩
| s :: slots, cfg, script =>
  match learnSlot s.write cfg script with
  | .outOfScript => ⟨[], .outOfScript, []⟩
  | .keyError => ⟨[], .keyError s.path, []⟩
  | .step o cfg2 rest =>
    ⟨(s.path, o) :: (runSlotsLenient slots cfg2 rest).trace,
      (runSlotsLenient slots cfg2 rest).result, (runSlotsLenient slots cfg2 rest).rest⟩

/-- Python dict lookup (association list). -/
def alGet {α : Type} (k : String) : List (String × α) → Option α
| [] => none
| (k2, v) :: rest => if k2 = k then some v else alGet k rest

/-- Python dict assignment: update the existing key in place, else append. -/
def alSet {α : Type} (k : String) (v : α) : List (String × α) → List (String × α)
| [] => [(k, v)]
| (k2, v2) :: rest => if k2 = k then (k2, v) :: rest else (k2, v2) :: alSet k v rest

/-! ## Payload encodings (helpers.py `async_learn`) -/

/-- The sixteen lowercase hexadecimal digits, as used by Python `format(x, '02x')`. -/
def hexDigitChars : List Char := "0123456789abcdef".toList

/-- Digit lookup for `format(_, 'x')`. -/
def hexDigit (n : Nat) : Char := hexDigitChars.getD n '0'

/-- `format(x, '02x')` for a byte `b < 256`: exactly two lowercase hex digits. -/
def toHex2 (b : Nat) : List Char := [hexDigit (b / 16), hexDigit (b % 16)]

/-- `''.join(format(x, '02x') for x in data)`. -/
def hexEncodeList (bytes : List Nat) : List Char := bytes.flatMap toHex2

/-- Value of one lowercase hex digit (the `hex_codec` decoder, restricted to
the lowercase digits `hexEncodeList` itself produces). -/
def hexVal (c : Char) : Option Nat := hexDigitChars.indexOf? c

/-- `codecs.getdecoder("hex_codec")`: decode a hex string two digits at a
time; odd length or a non-digit is an error (`none`). -/
def hexDecodePairs : List Char → Option (List Nat)
| [] => some []
| [_] => none
| c1 :: c2 :: rest =>
  match hexVal c1, hexVal c2, hexDecodePairs rest with
  | some v1, some v2, some vs => some ((16 * v1 + v2) :: vs)
  | _, _, _ => none

/-- The base64 alphabet in index order. -/
def b64AlphabetChars : List Char :=
  "ABCDEFGHIJKLMNOPQRSTUVWXYZabcdefghijklmnopqrstuvwxyz0123456789+/".toList

/-- The base64 digit for a 6-bit group. -/
def b64char (n : Nat) : Char := b64AlphabetChars.getD (n % 64) 'A'

/-- `base64.b64encode`: standard base64 with `=` padding, three input bytes
per four output characters. -/
def b64encodeList : List Nat → List Char
| [] => []
| [a] => [b64char (a / 4), b64char (a % 4 * 16), '=', '=']
| [a, b] => [b64char (a / 4), b64char (a % 4 * 16 + b / 16), b64char (b % 16 * 4), '=']
| a :: b :: c :: rest =>
  b64char (a / 4) :: b64char (a % 4 * 16 + b / 16) ::
    b64char (b % 16 * 4 + c / 64) :: b64char (c % 64) :: b64encodeList rest

/-- The IR payload pipeline of `async_learn` (helpers.py lines 139-141):
hex-encode the raw bytes, decode the hex string back to bytes, then
base64-encode; the unreachable decode failure yields `""`. -/
def irEncode (bytes : List Nat) : String :=
  match hexDecodePairs (hexEncodeList bytes) with
  | some bs => String.mk (b64encodeList bs)
  | none => ""

/-- The RF payload pipeline of `async_learn` (helpers.py line 104): the plain
lowercase hex string of the raw bytes, with no base64 wrapping. -/
def rfEncode (bytes : List Nat) : String := String.mk (hexEncodeList bytes)

/-- Is this character a base64 alphabet character? -/
def isB64Char (c : Char) : Bool := b64AlphabetChars.contains c

/-- Valid final base64 quantum: at most two `=` padding characters, only at
the very end. -/
def b64ValidTail (c d : Char) : Bool :=
  (isB64Char c && (isB64Char d || d == '=')) || (c == '=' && d == '=')

/-- Base64 string validity: a sequence of 4-character quanta, all alphabet
characters except that the last quantum may end in `=` or `==`. -/
def b64Valid : List Char → Bool
| [] => true
| a :: b :: c :: d :: rest =>
  isB64Char a && isB64Char b &&
    (if rest.isEmpty then b64ValidTail c d else isB64Char c && isB64Char d && b64Valid rest)
| _ => false

/-- The payload string is valid base64. -/
def isBase64Str (s : String) : Bool := b64Valid s.toList

/-- The payload string is lowercase hexadecimal of even length. -/
def isLowerHexEven (s : String) : Bool :=
  s.toList.length % 2 == 0 && s.toList.all (fun c => hexDigitChars.contains c)

/-! ## Signal capture and frequency acquisition (helpers.py `async_learn`) -/

/-- What one IR `check_data` poll does.  The IR loop catches only
`(ReadError, StorageError)`; any other exception class (`errOther`, e.g. a
transport or auth error) is not caught there. -/
inductive IRPoll
| data (bytes : List Nat)
| errCaught (storageFull : Bool)
| errOther
deriving DecidableEq

/-- What one RF `auth`/`check_data` round does.  The RF loop's handler is a
bare `except Exception`, so every error is caught; `storageFull` records
whether the message contains "storage is full". -/
inductive RFPoll
| data (bytes : List Nat)
| err (storageFull : Bool)
deriving DecidableEq

/-- Result of a capture attempt: a payload, deadline expiry, or an uncaught
exception propagating out of `async_learn`. -/
inductive CaptureOutcome
| captured (payload : String)
| timedOut
| raised
deriving DecidableEq

/-- The IR polling loop of `async_learn` (helpers.py lines 131-150):
`while time.time() - start < 20: time.sleep(1); data = check_data() ...`.
Each iteration costs one second, so poll `elapsed` happens strictly inside the
20-second deadline; returns the outcome and the list of poll indices whose
errors were logged (`storage is full` is ignored without logging). -/
def irPollLoop (polls : Nat → IRPoll) (elapsed : Nat) : CaptureOutcome × List Nat :=
  if _h : elapsed < 20 then
    match polls elapsed with
    | .data bytes =>
      if bytes.isEmpty then irPollLoop polls (elapsed + 1)
      else (.captured (irEncode bytes), [])
    | .errCaught true => irPollLoop polls (elapsed + 1)
    | .errCaught false =>
      ((irPollLoop polls (elapsed + 1)).1, elapsed :: (irPollLoop polls (elapsed + 1)).2)
    | .errOther => (.raised, [])
  else (.timedOut, [])
termination_by 20 - elapsed

/-- The RF data polling loop of `async_learn` (helpers.py lines 91-115):
polls every 100 ms within the 20-second deadline (at most 200 polls);
re-auths before each poll; all exceptions are caught, non-"storage is full"
ones are logged; on data returns the plain hex payload. -/
def rfPollLoop (polls : Nat → RFPoll) (k : Nat) : CaptureOutcome × List Nat :=
  if _h : k < 200 then
    match polls k with
    | .data bytes =>
      if bytes.isEmpty then rfPollLoop polls (k + 1)
      else (.captured (rfEncode bytes), [])
    | .err true => rfPollLoop polls (k + 1)
    | .err false => ((rfPollLoop polls (k + 1)).1, k :: (rfPollLoop polls (k + 1)).2)
  else (.timedOut, [])
termination_by 200 - k

/-- The RF frequency-detection loop of `async_learn` (helpers.py lines
53-64): `while time.time() - start < 20: time.sleep(1); locked, f =
check_frequency(); if locked: break` with a `for`-`else` returning `None` on
expiry.  Each iteration costs one second.  Returns the locked frequency (or
`none` = timed out) together with the number of lock polls performed. -/
def freqDetect (responses : Nat → Bool × ℚ) (elapsed : Nat) : Option ℚ × Nat :=
  if h : elapsed < 20 then
    if (responses elapsed).1 then (some (responses elapsed).2, 1)
    else ((freqDetect responses (elapsed + 1)).1, (freqDetect responses (elapsed + 1)).2 + 1)
  else (none, 0)
termination_by 20 - elapsed

/-! ## Climate device (climate.py) -/

/-- Floor of a rational, computed as in Python floor division. -/
def floorQ (q : ℚ) : ℤ := q.num.fdiv q.den

/-- Python `int()` on a rational-valued float: truncation toward zero. -/
def pyInt (q : ℚ) : ℤ := if 0 ≤ q then floorQ q else -floorQ (-q)

/-- `str(temp)` for the temperature values ClimateDevice produces (climate.py
line 45: `int(x) if x.is_integer() else x`, then `str`).  All produced values
are `n` or `n + 1/2` with `n : ℕ` (precision is 1.0 or 0.5, bounds are
nonnegative integers), so the Python float rendering of the non-integral case
is `⌊q⌋.5`. -/
def renderTemp (q : ℚ) : String :=
  if q.den = 1 then toString q.num else toString (floorQ q) ++ ".5"

/-- climate.py line 44: `[tempMin + precision * i for i in
range(int((tempMax - tempMin) / precision) + 1)]`. -/
def climateTemps (tempMin tempMax : ℕ) (precision : ℚ) : List ℚ :=
  (List.range (pyInt (((tempMax : ℚ) - (tempMin : ℚ)) / precision) + 1).toNat).map
    (fun i : ℕ => (tempMin : ℚ) + precision * (i : ℚ))

/-- Value of a climate `commands` dict entry: the dedicated `off` payload
string, or a per-operation-mode map fanMode ↦ (tempKey ↦ payload). -/
inductive ClimateEntry
| leaf (payload : String)
| modeMap (fans : List (String × List (String × String)))
deriving DecidableEq

/-- The climate output config (climate.py `_buildBaseOutputConfig`). -/
structure ClimateConfig where
  manufacturer : String
  supportedModels : List String
  supportedController : String
  commandsEncoding : String
  minTemperature : ℕ
  maxTemperature : ℕ
  precision : ℚ
  operationModes : List String
  fanModes : List String
  commands : List (String × ClimateEntry)
deriving DecidableEq

/-- `ClimateOperationModes` values in enum order, with `OFF` removed as the
learning loop and the operation-mode prompt both do. -/
def climateOperationModeValues : List String :=
  ["cool", "heat", "heat_cool", "fan_only", "dry"]

/-- `ClimateFanModes` values in enum order. -/
def climateFanModeValues : List String :=
  ["auto", "level1", "level2", "level3", "level4", "level5", "level6", "level7",
    "level8", "level9", "level10"]

/-- climate.py `_buildBaseOutputConfig`: fixed header fields plus an empty
nested commands tree over the operator-selected operation modes, the
operator-selected fan modes and the temperature steps. -/
def climateBuildBaseOutputConfig (manufacturer : String) (supportedModels : List String)
    (tempMin tempMax : ℕ) (precision : ℚ) (operationModes fanModes : List String)
    (temps : List ℚ) : ClimateConfig :=
  { manufacturer := manufacturer
    supportedModels := supportedModels
    supportedController := "Broadlink"
    commandsEncoding := "Base64"
    minTemperature := tempMin
    maxTemperature := tempMax
    precision := precision
    operationModes := operationModes
    fanModes := fanModes
    commands := operationModes.map (fun op =>
      (op, ClimateEntry.modeMap (fanModes.map (fun fan =>
        (fan, temps.map (fun t => (renderTemp t, ""))))))) }

/-- `self.outputConfig['commands']['off'] = command` (climate.py line 179):
plain dict assignment, inserting the key if absent. -/
def climateWriteOff (cfg : ClimateConfig) (cmd : String) : Option ClimateConfig :=
  some { cfg with commands := alSet "off" (ClimateEntry.leaf cmd) cfg.commands }

/-- `self.outputConfig['commands'][operationMode][fanMode][str(temp)] =
command` (climate.py line 137): the two subscripts raise `KeyError` (`none`)
when the operation mode or fan mode is not in the built config; the final
assignment inserts or updates the temperature key. -/
def climateWriteTemp (op fan tempKey : String) (cfg : ClimateConfig) (cmd : String) :
    Option ClimateConfig :=
  match alGet op cfg.commands with
  | some (ClimateEntry.modeMap fans) =>
    match alGet fan fans with
    | some temps =>
      some { cfg with
        commands :=
          alSet op (ClimateEntry.modeMap (alSet fan (alSet tempKey cmd temps) fans)) cfg.commands }
    | none => none
  | _ => none

/-- The slot sequence `ClimateDevice.learn` walks (climate.py lines 190-206):
the dedicated OFF slot, then every `ClimateOperationModes` member except OFF
crossed with every `ClimateFanModes` member crossed with the temperature
steps — the full enums, not the operator's selections. -/
def climateSlotList (temps : List ℚ) : List (SlotSpec ClimateConfig) :=
  ⟨["off"], climateWriteOff⟩ ::
    climateOperationModeValues.flatMap (fun op =>
      climateFanModeValues.flatMap (fun fan =>
        temps.map (fun t => ⟨[op, fan, renderTemp t], climateWriteTemp op fan (renderTemp t)⟩)))

/-- `ClimateDevice.learn`: build the base config from the operator's inputs,
then strictly learn the OFF slot and the nested enumeration. -/
def climateLearn (manufacturer : String) (supportedModels : List String)
    (tempMin tempMax : ℕ) (precision : ℚ) (operationModes fanModes : List String)
    (script : Script) : RunOut ClimateConfig :=
  runSlotsStrict (climateSlotList (climateTemps tempMin tempMax precision))
    (climateBuildBaseOutputConfig manufacturer supportedModels tempMin tempMax precision
      operationModes fanModes (climateTemps tempMin tempMax precision))
    script

/-! ## Fan device (fan.py) -/

/-- The fan output config (fan.py `_buildBaseOutputConfig`); the empty
sentinel of its flat commands dict is Python `None`, i.e. `Option.none`. -/
structure FanConfig where
  manufacturer : String
  supportedModels : List String
  supportedController : String
  commandsEncoding : String
  speed : List String
  timer : List String
  commands : List (String × Option String)
deriving DecidableEq

/-- `FanSpeedModes` values in enum order (fan.py takes all of them). -/
def fanSpeedModeValues : List String :=
  ["level1", "level2", "level3", "level4", "level5", "level6"]

/-- fan.py `_buildBaseOutputConfig`: header fields plus `off`/`on`/`reverse`,
the six speed levels and the operator-selected timer modes, all `None`. -/
def fanBuildBaseOutputConfig (manufacturer : String) (supportedModels : List String)
    (timerModes : List String) : FanConfig :=
  { manufacturer := manufacturer
    supportedModels := supportedModels
    supportedController := "Broadlink"
    commandsEncoding := "Base64"
    speed := fanSpeedModeValues
    timer := timerModes
    commands := [("off", none), ("on", none), ("reverse", none)]
      ++ fanSpeedModeValues.map (fun m => (m, none))
      ++ timerModes.map (fun m => (m, none)) }

/-- `self.outputConfig['commands'][commandType] = command` (fan.py line 136). -/
def fanWrite (k : String) (cfg : FanConfig) (cmd : String) : Option FanConfig :=
  some { cfg with commands := alSet k (some cmd) cfg.commands }

/-- The slot sequence `FanDevice.learn` walks (fan.py lines 152-188):
off/on/reverse, the six speed levels, the selected timer modes. -/
def fanSlotList (timerModes : List String) : List (SlotSpec FanConfig) :=
  (["off", "on", "reverse"] ++ fanSpeedModeValues ++ timerModes).map
    (fun k => ⟨[k], fanWrite k⟩)

/-- `FanDevice.learn`: lenient traversal that ignores `_learnCommand`'s
boolean and always returns `self.outputConfig` at the end. -/
def fanLearn (manufacturer : String) (supportedModels : List String)
    (timerModes : List String) (script : Script) : RunOut FanConfig :=
  runSlotsLenient (fanSlotList timerModes)
    (fanBuildBaseOutputConfig manufacturer supportedModels timerModes) script

/-! ## Light device (light.py) -/

/-- Value of a light `commands` dict entry: an operation-mode payload or the
nested `colors` map. -/
inductive LightEntry
| leaf (payload : String)
| colorMap (m : List (String × String))
deriving DecidableEq

/-- The light output config (light.py `_buildBaseOutputConfig`). -/
structure LightConfig where
  manufacturer : String
  supportedModels : List String
  supportedController : String
  commandsEncoding : String
  commands : List (String × LightEntry)
deriving DecidableEq

/-- `LightOperationModes` values in enum order. -/
def lightOperationModeValues : List String := ["off", "on", "brighten", "dim"]

/-- `LightColorModes` values in enum order. -/
def lightColorModeValues : List String := ["white", "blue", "yellow"]

/-- light.py `_buildBaseOutputConfig`: the four operation-mode leaves then
the `colors` map, all at the empty sentinel `""`. -/
def lightBuildBaseOutputConfig (manufacturer : String) (supportedModels : List String) :
    LightConfig :=
  { manufacturer := manufacturer
    supportedModels := supportedModels
    supportedController := "Broadlink"
    commandsEncoding := "Base64"
    commands := lightOperationModeValues.map (fun m => (m, LightEntry.leaf ""))
      ++ [("colors", LightEntry.colorMap (lightColorModeValues.map (fun c => (c, ""))))] }

/-- light.py `_writeCommandToConfig`, non-color branch:
`self.outputConfig['commands'][command_type] = command`. -/
def lightWriteMode (mode : String) (cfg : LightConfig) (cmd : String) : Option LightConfig :=
  some { cfg with commands := alSet mode (LightEntry.leaf cmd) cfg.commands }

/-- light.py `_writeCommandToConfig`, color branch:
`self.outputConfig['commands']['colors'][command_name] = command`; the
`colors` subscript would be a `KeyError` if the key were missing or a leaf. -/
def lightWriteColor (color : String) (cfg : LightConfig) (cmd : String) : Option LightConfig :=
  match alGet "colors" cfg.commands with
  | some (LightEntry.colorMap m) =>
    some { cfg with commands := alSet "colors" (LightEntry.colorMap (alSet color cmd m)) cfg.commands }
  | _ => none

/-- The slot sequence `LightDevice.learn` walks (light.py lines 112-123):
the operation modes, then the colors. -/
def lightSlotList : List (SlotSpec LightConfig) :=
  lightOperationModeValues.map (fun m => ⟨[m], lightWriteMode m⟩)
    ++ lightColorModeValues.map (fun c => ⟨["colors", c], lightWriteColor c⟩)

/-- `LightDevice.learn`: strict traversal over modes then colors. -/
def lightLearn (manufacturer : String) (supportedModels : List String) (script : Script) :
    RunOut LightConfig :=
  runSlotsStrict lightSlotList (lightBuildBaseOutputConfig manufacturer supportedModels) script

/-! ## Media device (media.py) -/

/-- Value of a media `commands` dict entry: a transport-command payload or
the nested `sources` map. -/
inductive MediaEntry
| leaf (payload : String)
| sourceMap (m : List (String × String))
deriving DecidableEq

/-- The media output config (media.py `_buildBaseOutputConfig`). -/
structure MediaConfig where
  manufacturer : String
  supportedModels : List String
  supportedController : String
  commandsEncoding : String
  commands : List (String × MediaEntry)
deriving DecidableEq

/-- `MediaCommands` values in enum order. -/
def mediaCommandValues : List String :=
  ["off", "on", "previousChannel", "nextChannel", "volumeUp", "volumeDown", "mute"]

/-- media.py `_buildBaseOutputConfig`: the `sources` map is created first,
then one empty leaf per `MediaCommands` member, then one empty entry per
operator-declared source inside the `sources` map. -/
def mediaBuildBaseOutputConfig (manufacturer : String) (supportedModels : List String)
    (sources : List String) : MediaConfig :=
  { manufacturer := manufacturer
    supportedModels := supportedModels
    supportedController := "Broadlink"
    commandsEncoding := "Base64"
    commands := ("sources", MediaEntry.sourceMap (sources.map (fun s => (s, ""))))
      :: mediaCommandValues.map (fun c => (c, MediaEntry.leaf "")) }

/-- media.py line 94: `self.outputConfig['commands'][commandType] = command`
— a flat assignment; for `commandType = 'sources'` it replaces the whole
nested sources map with the payload string. -/
def mediaWrite (k : String) (cfg : MediaConfig) (cmd : String) : Option MediaConfig :=
  some { cfg with commands := alSet k (MediaEntry.leaf cmd) cfg.commands }

/-- The slot sequence `MediaDevice.learn` walks (media.py lines 112-123): the
seven transport commands, then one slot per declared source — each of which
calls `_learnCommand('sources')`, so each source slot's write key is the
literal string `'sources'`. -/
def mediaSlotList (sources : List String) : List (SlotSpec MediaConfig) :=
  mediaCommandValues.map (fun c => ⟨[c], mediaWrite c⟩)
    ++ sources.map (fun _ => ⟨["sources"], mediaWrite "sources"⟩)

/-- `MediaDevice.learn`: strict traversal over the transport commands then
the sources. -/
def mediaLearn (manufacturer : String) (supportedModels : List String)
    (sources : List String) (script : Script) : RunOut MediaConfig :=
  runSlotsStrict (mediaSlotList sources)
    (mediaBuildBaseOutputConfig manufacturer supportedModels sources) script

/-! ## Session-engine lemmas -/

/-- A `keyError` step can only arise from a failing write. -/
theorem learnSlot_keyError {Cfg : Type} (write : Cfg → String → Option Cfg) :
    ∀ (script : Script) (cfg : Cfg), learnSlot write cfg script = .keyError →
      ∃ c cmd, write c cmd = none := by
  intro script
  induction script with
  | nil => intro cfg h; simp [learnSlot] at h
  | cons a rest ih =>
    intro cfg h
    cases ha : a.capture with
    | none =>
      by_cases hn : a.choice = "n" <;> simp [learnSlot, ha, hn] at h
      exact ih cfg h
    | some cmd =>
      by_cases hs : a.choice = "s"
      · simp [learnSlot, ha, hs] at h
      · by_cases hn : a.choice = "n"
        · simp [learnSlot, ha, hs, hn] at h
          exact ih cfg h
        · cases hw : write cfg cmd with
          | none => exact ⟨cfg, cmd, hw⟩
          | some cfg2 => simp [learnSlot, ha, hs, hn, hw] at h

/-- Any projection each successful write preserves is preserved across one
slot session. -/
theorem learnSlot_preserves {Cfg α : Type} (f : Cfg → α) (write : Cfg → String → Option Cfg)
    (hw : ∀ c cmd c', write c cmd = some c' → f c' = f c) :
    ∀ (script : Script) (cfg : Cfg) (o : SlotOutcome) (cfg2 : Cfg) (rest : Script),
      learnSlot write cfg script = .step o cfg2 rest → f cfg2 = f cfg := by
  intro script
  induction script with
  | nil => intro cfg o cfg2 rest h; simp [learnSlot] at h
  | cons a tail ih =>
    intro cfg o cfg2 rest h
    cases ha : a.capture with
    | none =>
      by_cases hn : a.choice = "n" <;> simp [learnSlot, ha, hn] at h
      · exact h.2.1 ▸ rfl
      · exact ih cfg o cfg2 rest h
    | some cmd =>
      by_cases hs : a.choice = "s"
      · simp [learnSlot, ha, hs] at h
        exact h.2.1 ▸ rfl
      · by_cases hn : a.choice = "n"
        · simp [learnSlot, ha, hs, hn] at h
          exact ih cfg o cfg2 rest h
        · cases hwe : write cfg cmd with
          | none => simp [learnSlot, ha, hs, hn, hwe] at h
          | some cfg3 =>
            simp [learnSlot, ha, hs, hn, hwe] at h
            rw [← h.2.1]
            exact hw cfg cmd cfg3 hwe

/-- Under the strict traversal, an aborted slot makes the pass fail at once:
the result is `failed`, the aborted slot is the last one visited, and the
visited slots are exactly the first `trace.length` slots of the list. -/
theorem runSlotsStrict_aborted {Cfg : Type} :
    ∀ (slots : List (SlotSpec Cfg)) (cfg : Cfg) (script : Script),
      SlotOutcome.aborted ∈ (runSlotsStrict slots cfg script).trace.map Prod.snd →
      (runSlotsStrict slots cfg script).result = .failed ∧
      (∃ pre, (runSlotsStrict slots cfg script).trace.map Prod.snd = pre ++ [SlotOutcome.aborted] ∧
        SlotOutcome.aborted ∉ pre) ∧
      (runSlotsStrict slots cfg script).trace.map Prod.fst =
        (slots.map SlotSpec.path).take (runSlotsStrict slots cfg script).trace.length := by
  intro slots
  induction slots with
  | nil => intro cfg script h; simp [runSlotsStrict] at h
  | cons s slots ih =>
    intro cfg script h
    cases hls : learnSlot s.write cfg script with
    | outOfScript => simp [runSlotsStrict, hls] at h
    | keyError => simp [runSlotsStrict, hls] at h
    | step o cfg2 rest =>
      cases o with
      | aborted =>
        refine ⟨by simp [runSlotsStrict, hls], ⟨[], by simp [runSlotsStrict, hls]⟩,
          by simp [runSlotsStrict, hls]⟩
      | saved p =>
        simp only [runSlotsStrict, hls] at h ⊢
        simp only [List.map_cons, List.mem_cons] at h
        have hmem : SlotOutcome.aborted ∈ (runSlotsStrict slots cfg2 rest).trace.map Prod.snd := by
          rcases h with h | h
          · exact absurd h.symm (by simp)
          · exact h
        obtain ⟨hres, ⟨pre, hpre, hnot⟩, htake⟩ := ih cfg2 rest hmem
        refine ⟨hres, ⟨SlotOutcome.saved p :: pre, by simp [hpre], by simp [hnot]⟩, ?_⟩
        simp [htake, List.take_succ_cons]
      | skipped =>
        simp only [runSlotsStrict, hls] at h ⊢
        simp only [List.map_cons, List.mem_cons] at h
        have hmem : SlotOutcome.aborted ∈ (runSlotsStrict slots cfg2 rest).trace.map Prod.snd := by
          rcases h with h | h
          · exact absurd h.symm (by simp)
          · exact h
        obtain ⟨hres, ⟨pre, hpre, hnot⟩, htake⟩ := ih cfg2 rest hmem
        refine ⟨hres, ⟨SlotOutcome.skipped :: pre, by simp [hpre], by simp [hnot]⟩, ?_⟩
        simp [htake, List.take_succ_cons]

/-- A strict pass that completes preserves any projection each slot write
preserves. -/
theorem runSlotsStrict_preserves {Cfg α : Type} (f : Cfg → α) :
    ∀ (slots : List (SlotSpec Cfg)) (cfg : Cfg) (script : Script),
      (∀ s ∈ slots, ∀ c cmd c', s.write c cmd = some c' → f c' = f c) →
      ∀ cfg3, (runSlotsStrict slots cfg script).result = .completed cfg3 → f cfg3 = f cfg := by
  intro slots
  induction slots with
  | nil =>
    intro cfg script _ cfg3 h
    simp [runSlotsStrict] at h
    rw [← h]
  | cons s slots ih =>
    intro cfg script hw cfg3 h
    cases hls : learnSlot s.write cfg script with
    | outOfScript => simp [runSlotsStrict, hls] at h
    | keyError => simp [runSlotsStrict, hls] at h
    | step o cfg2 rest =>
      have hstep : f cfg2 = f cfg :=
        learnSlot_preserves f s.write (hw s (by simp)) script cfg o cfg2 rest hls
      cases o with
      | aborted => simp [runSlotsStrict, hls] at h
      | saved p =>
        simp only [runSlotsStrict, hls] at h
        exact (ih cfg2 rest (fun t ht => hw t (by simp [ht])) cfg3 h).trans hstep
      | skipped =>
        simp only [runSlotsStrict, hls] at h
        exact (ih cfg2 rest (fun t ht => hw t (by simp [ht])) cfg3 h).trans hstep

/-- A lenient pass that completes preserves any projection each slot write
preserves. -/
theorem runSlotsLenient_preserves {Cfg α : Type} (f : Cfg → α) :
    ∀ (slots : List (SlotSpec Cfg)) (cfg : Cfg) (script : Script),
      (∀ s ∈ slots, ∀ c cmd c', s.write c cmd = some c' → f c' = f c) →
      ∀ cfg3, (runSlotsLenient slots cfg script).result = .completed cfg3 → f cfg3 = f cfg := by
  intro slots
  induction slots with
  | nil =>
    intro cfg script _ cfg3 h
    simp [runSlotsLenient] at h
    rw [← h]
  | cons s slots ih =>
    intro cfg script hw cfg3 h
    cases hls : learnSlot s.write cfg script with
    | outOfScript => simp [runSlotsLenient, hls] at h
    | keyError => simp [runSlotsLenient, hls] at h
    | step o cfg2 rest =>
      have hstep : f cfg2 = f cfg :=
        learnSlot_preserves f s.write (hw s (by simp)) script cfg o cfg2 rest hls
      simp only [runSlotsLenient, hls] at h
      exact (ih cfg2 rest (fun t ht => hw t (by simp [ht])) cfg3 h).trans hstep

/-- A lenient pass over total writes either runs out of scripted interaction
or completes having visited every slot in order; it never fails and never
raises. -/
theorem runSlotsLenient_total {Cfg : Type} :
    ∀ (slots : List (SlotSpec Cfg)) (cfg : Cfg) (script : Script),
      (∀ s ∈ slots, ∀ c cmd, s.write c cmd ≠ none) →
      (runSlotsLenient slots cfg script).result = .outOfScript ∨
        ∃ cfg2, (runSlotsLenient slots cfg script).result = .completed cfg2 ∧
          (runSlotsLenient slots cfg script).trace.map Prod.fst = slots.map SlotSpec.path := by
  intro slots
  induction slots with
  | nil => intro cfg script _; right; exact ⟨cfg, by simp [runSlotsLenient], by simp [runSlotsLenient]⟩
  | cons s slots ih =>
    intro cfg script hw
    cases hls : learnSlot s.write cfg script with
    | outOfScript => left; simp [runSlotsLenient, hls]
    | keyError =>
      obtain ⟨c, cmd, hnone⟩ := learnSlot_keyError s.write script cfg hls
      exact absurd hnone (hw s (by simp) c cmd)
    | step o cfg2 rest =>
      rcases ih cfg2 rest (fun t ht => hw t (by simp [ht])) with hout | ⟨cfg3, hres, htrace⟩
      · left; simp [runSlotsLenient, hls, hout]
      · right; exact ⟨cfg3, by simp [runSlotsLenient, hls, hres], by simp [runSlotsLenient, hls, htrace]⟩

/-! ## Claims about the matrix builders -/

/-- C1: the claim says `ClimateDevice.learn` visits exactly the operator's
selected operation modes × selected fan modes × temperature steps.  The code
instead iterates the full `ClimateOperationModes` and `ClimateFanModes`
enums: with only `cool`/`auto` selected (tempMin = tempMax = 20,
precision = 1.0) and every capture accepted, the pass visits the slot
`cool/level1/20` — whose fan mode the operator did not select — and crashes
there with a `KeyError`, because the built config has no `level1` key. -/
theorem climateLearn_visits_unselected_slot :
    (climateLearn "m" ["x"] 20 20 1 ["cool"] ["auto"]
        (List.replicate 3 ⟨some "CMD", ""⟩)).result
      = LearnResult.keyError ["cool", "level1", "20"] ∧
    "level1" ∉ (["auto"] : List String) := by
  constructor
  · have htemps : climateTemps 20 20 1 = [((20 : ℕ) : ℚ)] := by
      norm_num [climateTemps, pyInt, floorQ]
      simp [List.range_succ]
    have hrender : renderTemp ((20 : ℕ) : ℚ) = "20" := by
      norm_num [renderTemp]
      rfl
    unfold climateLearn
    rw [htemps]
    simp only [climateSlotList, climateBuildBaseOutputConfig, climateOperationModeValues,
      climateFanModeValues, List.flatMap_cons, List.flatMap_nil, List.map_cons, List.map_nil,
      List.append_nil, hrender]
    decide
  · decide

/-- C2: the claim says a fully successful media pass fills every
operator-declared source leaf under `commands.sources`.  The code calls
`_learnCommand('sources')` for each source, so the accepted payload is
assigned to `commands['sources']` itself: with one source `hdmi1` and all
eight captures accepted (payloads P1..P8), the pass completes but
`commands['sources']` is the plain leaf `P8` — the per-source map, and with
it the `hdmi1` leaf, has been overwritten. -/
theorem mediaLearn_source_leaf_clobbered :
    (match (mediaLearn "m" ["x"] ["hdmi1"]
        (["P1", "P2", "P3", "P4", "P5", "P6", "P7", "P8"].map
          (fun p => ⟨some p, ""⟩))).result with
      | LearnResult.completed cfg => alGet "sources" cfg.commands
      | _ => none)
      = some (MediaEntry.leaf "P8") := by
  rfl

/-- C4: `FanDevice.learn` follows the lenient policy: for every operator
selection and interaction script it never fails and never raises; whenever
the scripted interaction resolves every prompt, the pass completes with a
matrix, having visited the entire slot list in order — aborted and skipped
slots included. -/
theorem fanLearn_lenient_always_completes :
    ∀ (manufacturer : String) (supportedModels timerModes : List String) (script : Script),
      (fanLearn manufacturer supportedModels timerModes script).result ≠ .failed ∧
      (∀ p, (fanLearn manufacturer supportedModels timerModes script).result ≠ .keyError p) ∧
      ((fanLearn manufacturer supportedModels timerModes script).result = .outOfScript ∨
        ∃ cfg, (fanLearn manufacturer supportedModels timerModes script).result = .completed cfg ∧
          (fanLearn manufacturer supportedModels timerModes script).trace.map Prod.fst
            = (fanSlotList timerModes).map SlotSpec.path) := by
  intro manufacturer supportedModels timerModes script
  have htotal : ∀ s ∈ fanSlotList timerModes, ∀ (c : FanConfig) (cmd : String),
      s.write c cmd ≠ none := by
    intro s hs c cmd
    rw [fanSlotList] at hs
    obtain ⟨k, _, hk⟩ := List.mem_map.mp hs
    rw [← hk]
    simp [fanWrite]
  have h := runSlotsLenient_total (fanSlotList timerModes)
    (fanBuildBaseOutputConfig manufacturer supportedModels timerModes) script htotal
  refine ⟨?_, ?_, h⟩
  · rcases h with h | ⟨cfg, h, _⟩ <;> simp [fanLearn] at h ⊢ <;> simp [h]
  · intro p
    rcases h with h | ⟨cfg, h, _⟩ <;> simp [fanLearn] at h ⊢ <;> simp [h]

/-- C5: `ClimateDevice.learn`, `LightDevice.learn` and `MediaDevice.learn`
follow the strict policy: if any slot is aborted (capture failed and the
operator answered `n`), the pass fails immediately — the aborted slot is the
last slot visited, no later slot of the list is visited, and no matrix is
returned. -/
theorem strict_abort_stops_pass :
    (∀ (man : String) (models : List String) (tmin tmax : ℕ) (prec : ℚ)
        (ops fans : List String) (script : Script),
      SlotOutcome.aborted ∈
          (climateLearn man models tmin tmax prec ops fans script).trace.map Prod.snd →
        (climateLearn man models tmin tmax prec ops fans script).result = .failed ∧
        (∃ pre, (climateLearn man models tmin tmax prec ops fans script).trace.map Prod.snd
              = pre ++ [SlotOutcome.aborted] ∧ SlotOutcome.aborted ∉ pre) ∧
        (climateLearn man models tmin tmax prec ops fans script).trace.map Prod.fst
          = ((climateSlotList (climateTemps tmin tmax prec)).map SlotSpec.path).take
              (climateLearn man models tmin tmax prec ops fans script).trace.length) ∧
    (∀ (man : String) (models : List String) (script : Script),
      SlotOutcome.aborted ∈ (lightLearn man models script).trace.map Prod.snd →
        (lightLearn man models script).result = .failed ∧
        (∃ pre, (lightLearn man models script).trace.map Prod.snd
              = pre ++ [SlotOutcome.aborted] ∧ SlotOutcome.aborted ∉ pre) ∧
        (lightLearn man models script).trace.map Prod.fst
          = (lightSlotList.map SlotSpec.path).take (lightLearn man models script).trace.length) ∧
    (∀ (man : String) (models sources : List String) (script : Script),
      SlotOutcome.aborted ∈ (mediaLearn man models sources script).trace.map Prod.snd →
        (mediaLearn man models sources script).result = .failed ∧
        (∃ pre, (mediaLearn man models sources script).trace.map Prod.snd
              = pre ++ [SlotOutcome.aborted] ∧ SlotOutcome.aborted ∉ pre) ∧
        (mediaLearn man models sources script).trace.map Prod.fst
          = ((mediaSlotList sources).map SlotSpec.path).take
              (mediaLearn man models sources script).trace.length) :=
  ⟨fun _ _ tmin tmax prec _ _ script h =>
      runSlotsStrict_aborted (climateSlotList (climateTemps tmin tmax prec)) _ script h,
   fun _ _ script h => runSlotsStrict_aborted lightSlotList _ script h,
   fun _ _ sources script h => runSlotsStrict_aborted (mediaSlotList sources) _ script h⟩

/-- Witness for `strict_abort_stops_pass`: with the very first capture failed
and the operator giving up, all three strict devices abort on their first
slot and return no matrix. -/
theorem strict_abort_stops_pass_witness :
    (climateLearn "m" ["x"] 20 20 1 ["cool"] ["auto"] [⟨none, "n"⟩]).result = .failed ∧
    (lightLearn "m" ["x"] [⟨none, "n"⟩]).result = .failed ∧
    (mediaLearn "m" ["x"] ["hdmi1"] [⟨none, "n"⟩]).result = .failed :=
  ⟨(strict_abort_stops_pass.1 "m" ["x"] 20 20 1 ["cool"] ["auto"] [⟨none, "n"⟩] (by decide)).1,
   (strict_abort_stops_pass.2.1 "m" ["x"] [⟨none, "n"⟩] (by decide)).1,
   (strict_abort_stops_pass.2.2 "m" ["x"] ["hdmi1"] [⟨none, "n"⟩] (by decide)).1⟩

/-- C9: skipping a slot after a successful capture leaves the config exactly
as it was — the slot's leaf stays at the empty sentinel it held and no
sibling leaf changes — and both the strict traversal (climate) and the
lenient traversal (fan) then continue with the remaining slots. -/
theorem skip_preserves_config_and_continues :
    (∀ (Cfg : Type) (write : Cfg → String → Option Cfg) (cfg : Cfg) (script : Script)
        (cfg2 : Cfg) (rest : Script),
      learnSlot write cfg script = .step .skipped cfg2 rest → cfg2 = cfg) ∧
    (∀ (Cfg : Type) (s : SlotSpec Cfg) (slots : List (SlotSpec Cfg)) (cfg : Cfg)
        (script : Script) (cfg2 : Cfg) (rest : Script),
      learnSlot s.write cfg script = .step .skipped cfg2 rest →
        runSlotsStrict (s :: slots) cfg script =
          ⟨(s.path, .skipped) :: (runSlotsStrict slots cfg2 rest).trace,
            (runSlotsStrict slots cfg2 rest).result, (runSlotsStrict slots cfg2 rest).rest⟩) ∧
    (∀ (Cfg : Type) (s : SlotSpec Cfg) (slots : List (SlotSpec Cfg)) (cfg : Cfg)
        (script : Script) (cfg2 : Cfg) (rest : Script),
      learnSlot s.write cfg script = .step .skipped cfg2 rest →
        runSlotsLenient (s :: slots) cfg script =
          ⟨(s.path, .skipped) :: (runSlotsLenient slots cfg2 rest).trace,
            (runSlotsLenient slots cfg2 rest).result, (runSlotsLenient slots cfg2 rest).rest⟩) := by
  refine ⟨?_, ?_, ?_⟩
  · intro Cfg write cfg script
    induction script with
    | nil => intro cfg2 rest h; simp [learnSlot] at h
    | cons a tail ih =>
      intro cfg2 rest h
      cases ha : a.capture with
      | none =>
        by_cases hn : a.choice = "n" <;> simp [learnSlot, ha, hn] at h
        exact ih cfg2 rest h
      | some cmd =>
        by_cases hs : a.choice = "s"
        · simp [learnSlot, ha, hs] at h
          exact h.1.symm
        · by_cases hn : a.choice = "n"
          · simp [learnSlot, ha, hs, hn] at h
            exact ih cfg2 rest h
          · cases hwe : write cfg cmd with
            | none => simp [learnSlot, ha, hs, hn, hwe] at h
            | some cfg3 => simp [learnSlot, ha, hs, hn, hwe] at h
  · intro Cfg s slots cfg script cfg2 rest h
    simp [runSlotsStrict, h]
  · intro Cfg s slots cfg script cfg2 rest h
    simp [runSlotsLenient, h]

/-- Witness for `skip_preserves_config_and_continues`: a concrete fan pass
where the first capture is accepted-then-skipped. -/
theorem skip_preserves_config_and_continues_witness :
    (fanBuildBaseOutputConfig "m" ["x"] ["timer_1h"]
        = fanBuildBaseOutputConfig "m" ["x"] ["timer_1h"]) ∧
    runSlotsLenient (fanSlotList ["timer_1h"]) (fanBuildBaseOutputConfig "m" ["x"] ["timer_1h"])
        [⟨some "P", "s"⟩]
      = ⟨(["off"], .skipped)
            :: (runSlotsLenient ((fanSlotList ["timer_1h"]).tail)
                  (fanBuildBaseOutputConfig "m" ["x"] ["timer_1h"]) []).trace,
          (runSlotsLenient ((fanSlotList ["timer_1h"]).tail)
            (fanBuildBaseOutputConfig "m" ["x"] ["timer_1h"]) []).result,
          (runSlotsLenient ((fanSlotList ["timer_1h"]).tail)
            (fanBuildBaseOutputConfig "m" ["x"] ["timer_1h"]) []).rest⟩ := by
  constructor
  · exact skip_preserves_config_and_continues.1 FanConfig (fanWrite "off")
      (fanBuildBaseOutputConfig "m" ["x"] ["timer_1h"]) [⟨some "P", "s"⟩]
      (fanBuildBaseOutputConfig "m" ["x"] ["timer_1h"]) [] (by rfl) ▸ rfl
  · exact skip_preserves_config_and_continues.2.2 FanConfig ⟨["off"], fanWrite "off"⟩
      ((fanSlotList ["timer_1h"]).tail) (fanBuildBaseOutputConfig "m" ["x"] ["timer_1h"])
      [⟨some "P", "s"⟩] (fanBuildBaseOutputConfig "m" ["x"] ["timer_1h"]) [] (by rfl)

/-- Every climate slot write leaves `commandsEncoding` unchanged. -/
theorem climateWrites_preserve_encoding (temps : List ℚ) :
    ∀ s ∈ climateSlotList temps, ∀ (c : ClimateConfig) (cmd : String) (c' : ClimateConfig),
      s.write c cmd = some c' → c'.commandsEncoding = c.commandsEncoding := by
  intro s hs c cmd c' hw
  rw [climateSlotList] at hs
  rcases List.mem_cons.mp hs with h | h
  · rw [h] at hw
    simp [climateWriteOff] at hw
    rw [← hw]
  · obtain ⟨op, _, h2⟩ := List.mem_flatMap.mp h
    obtain ⟨fan, _, h3⟩ := List.mem_flatMap.mp h2
    obtain ⟨t, _, hst⟩ := List.mem_map.mp h3
    rw [← hst] at hw
    simp only [climateWriteTemp] at hw
    cases halg : alGet op c.commands with
    | none => rw [halg] at hw; simp at hw
    | some entry =>
      cases entry with
      | leaf p => rw [halg] at hw; simp at hw
      | modeMap fans2 =>
        rw [halg] at hw
        cases halg2 : alGet fan fans2 with
        | none => simp [halg2] at hw
        | some temps2 =>
          simp [halg2] at hw
          rw [← hw]

/-- Every fan slot write leaves `commandsEncoding` unchanged. -/
theorem fanWrites_preserve_encoding (timerModes : List String) :
    ∀ s ∈ fanSlotList timerModes, ∀ (c : FanConfig) (cmd : String) (c' : FanConfig),
      s.write c cmd = some c' → c'.commandsEncoding = c.commandsEncoding := by
  intro s hs c cmd c' hw
  rw [fanSlotList] at hs
  obtain ⟨k, _, hk⟩ := List.mem_map.mp hs
  rw [← hk] at hw
  simp [fanWrite] at hw
  rw [← hw]

/-- Every light slot write leaves `commandsEncoding` unchanged. -/
theorem lightWrites_preserve_encoding :
    ∀ s ∈ lightSlotList, ∀ (c : LightConfig) (cmd : String) (c' : LightConfig),
      s.write c cmd = some c' → c'.commandsEncoding = c.commandsEncoding := by
  intro s hs c cmd c' hw
  rw [lightSlotList] at hs
  rcases List.mem_append.mp hs with h | h
  · obtain ⟨m, _, hm⟩ := List.mem_map.mp h
    rw [← hm] at hw
    simp [lightWriteMode] at hw
    rw [← hw]
  · obtain ⟨col, _, hm⟩ := List.mem_map.mp h
    rw [← hm] at hw
    simp only [lightWriteColor] at hw
    cases halg : alGet "colors" c.commands with
    | none => rw [halg] at hw; simp at hw
    | some entry =>
      cases entry with
      | leaf p => rw [halg] at hw; simp at hw
      | colorMap m2 =>
        rw [halg] at hw
        simp at hw
        rw [← hw]

/-- Every media slot write leaves `commandsEncoding` unchanged. -/
theorem mediaWrites_preserve_encoding (sources : List String) :
    ∀ s ∈ mediaSlotList sources, ∀ (c : MediaConfig) (cmd : String) (c' : MediaConfig),
      s.write c cmd = some c' → c'.commandsEncoding = c.commandsEncoding := by
  intro s hs c cmd c' hw
  rw [mediaSlotList] at hs
  rcases List.mem_append.mp hs with h | h
  · obtain ⟨k, _, hk⟩ := List.mem_map.mp h
    rw [← hk] at hw
    simp [mediaWrite] at hw
    rw [← hw]
  · obtain ⟨src, _, hk⟩ := List.mem_map.mp h
    rw [← hk] at hw
    simp [mediaWrite] at hw
    rw [← hw]

/-- C10: for every device type — and independently of the signal mode, which
the builders never consult — the produced matrix's `commandsEncoding` field
is the constant string `"Base64"`: it is set to that constant by every
`_buildBaseOutputConfig` and no learning pass (whose writes only touch the
`commands` tree, RF hex payloads included) ever changes it. -/
theorem commandsEncoding_always_Base64 :
    (∀ (man : String) (models : List String) (tmin tmax : ℕ) (prec : ℚ)
        (ops fans : List String) (temps : List ℚ),
      (climateBuildBaseOutputConfig man models tmin tmax prec ops fans temps).commandsEncoding
        = "Base64") ∧
    (∀ (man : String) (models timers : List String),
      (fanBuildBaseOutputConfig man models timers).commandsEncoding = "Base64") ∧
    (∀ (man : String) (models : List String),
      (lightBuildBaseOutputConfig man models).commandsEncoding = "Base64") ∧
    (∀ (man : String) (models sources : List String),
      (mediaBuildBaseOutputConfig man models sources).commandsEncoding = "Base64") ∧
    (∀ (man : String) (models : List String) (tmin tmax : ℕ) (prec : ℚ)
        (ops fans : List String) (script : Script) (cfg : ClimateConfig),
      (climateLearn man models tmin tmax prec ops fans script).result = .completed cfg →
        cfg.commandsEncoding = "Base64") ∧
    (∀ (man : String) (models timers : List String) (script : Script) (cfg : FanConfig),
      (fanLearn man models timers script).result = .completed cfg →
        cfg.commandsEncoding = "Base64") ∧
    (∀ (man : String) (models : List String) (script : Script) (cfg : LightConfig),
      (lightLearn man models script).result = .completed cfg →
        cfg.commandsEncoding = "Base64") ∧
    (∀ (man : String) (models sources : List String) (script : Script) (cfg : MediaConfig),
      (mediaLearn man models sources script).result = .completed cfg →
        cfg.commandsEncoding = "Base64") := by
  refine ⟨fun _ _ _ _ _ _ _ _ => rfl, fun _ _ _ => rfl, fun _ _ => rfl, fun _ _ _ => rfl,
    ?_, ?_, ?_, ?_⟩
  · intro man models tmin tmax prec ops fans script cfg h
    exact (runSlotsStrict_preserves ClimateConfig.commandsEncoding
      (climateSlotList (climateTemps tmin tmax prec)) _ script
      (climateWrites_preserve_encoding (climateTemps tmin tmax prec)) cfg h).trans rfl
  · intro man models timers script cfg h
    exact (runSlotsLenient_preserves FanConfig.commandsEncoding
      (fanSlotList timers) _ script (fanWrites_preserve_encoding timers) cfg h).trans rfl
  · intro man models script cfg h
    exact (runSlotsStrict_preserves LightConfig.commandsEncoding
      lightSlotList _ script lightWrites_preserve_encoding cfg h).trans rfl
  · intro man models sources script cfg h
    exact (runSlotsStrict_preserves MediaConfig.commandsEncoding
      (mediaSlotList sources) _ script (mediaWrites_preserve_encoding sources) cfg h).trans rfl

/-- Witness for `commandsEncoding_always_Base64`: a completed light pass
(every capture accepted) still carries `commandsEncoding = "Base64"`. -/
theorem commandsEncoding_always_Base64_witness :
    ((lightLearn "m" ["x"] (List.replicate 7 ⟨some "P", ""⟩)).result
        = LearnResult.completed
            { manufacturer := "m", supportedModels := ["x"], supportedController := "Broadlink",
              commandsEncoding := "Base64",
              commands := [("off", LightEntry.leaf "P"), ("on", LightEntry.leaf "P"),
                ("brighten", LightEntry.leaf "P"), ("dim", LightEntry.leaf "P"),
                ("colors", LightEntry.colorMap [("white", "P"), ("blue", "P"), ("yellow", "P")])] }) ∧
    ({ manufacturer := "m", supportedModels := ["x"], supportedController := "Broadlink",
        commandsEncoding := "Base64",
        commands := [("off", LightEntry.leaf "P"), ("on", LightEntry.leaf "P"),
          ("brighten", LightEntry.leaf "P"), ("dim", LightEntry.leaf "P"),
          ("colors", LightEntry.colorMap [("white", "P"), ("blue", "P"), ("yellow", "P")])] }
        : LightConfig).commandsEncoding = "Base64" := by
  constructor
  · decide
  · exact commandsEncoding_always_Base64.2.2.2.2.2.2.1 "m" ["x"]
      (List.replicate 7 ⟨some "P", ""⟩) _ (by decide)

/-! ## Claims about frequency acquisition and signal capture -/

/-- Bound and characterisation of the frequency-detection loop from `elapsed`
seconds in: at most `20 - elapsed` further polls, and the outcome is timed
out exactly when no remaining poll inside the deadline reports a lock. -/
theorem freqDetect_aux :
    ∀ (n e : ℕ) (responses : Nat → Bool × ℚ), 20 - e ≤ n →
      (freqDetect responses e).2 ≤ 20 - e ∧
      ((freqDetect responses e).1 = none ↔
        ∀ i, e ≤ i → i < 20 → (responses i).1 = false) := by
  intro n
  induction n with
  | zero =>
    intro e responses h
    have he : ¬ e < 20 := by omega
    rw [freqDetect]
    simp only [he, dite_false]
    refine ⟨by omega, iff_of_true trivial ?_⟩
    intro i hei hi
    omega
  | succ n ih =>
    intro e responses h
    by_cases he : e < 20
    · rw [freqDetect]
      simp only [he, dite_true]
      cases hl : (responses e).1 with
      | true =>
        simp only [hl, if_true]
        refine ⟨by omega, iff_of_false (by simp) ?_⟩
        intro hall
        exact absurd (hall e le_rfl he) (by simp [hl])
      | false =>
        simp only [hl, Bool.false_eq_true, if_false]
        obtain ⟨hcount, hiff⟩ := ih (e + 1) responses (by omega)
        refine ⟨by omega, ?_⟩
        rw [hiff]
        constructor
        · intro hall i hei hi
          rcases Nat.eq_or_lt_of_le hei with rfl | hlt
          · exact hl
          · exact hall i (by omega) hi
        · intro hall i hei hi
          exact hall i (by omega) hi
    · rw [freqDetect]
      simp only [he, dite_false]
      refine ⟨by omega, iff_of_true trivial ?_⟩
      intro i hei hi
      omega

/-- C7: during RF frequency acquisition the adapter's lock status is polled
at most 20 times (once per second inside the 20-second deadline), and the
acquisition reports the timed-out outcome (`none`, no frequency) exactly when
none of those polls inside the deadline reports a lock. -/
theorem frequency_lock_poll_bound :
    ∀ responses : Nat → Bool × ℚ,
      (freqDetect responses 0).2 ≤ 20 ∧
      ((freqDetect responses 0).1 = none ↔ ∀ i, i < 20 → (responses i).1 = false) := by
  intro responses
  obtain ⟨hcount, hiff⟩ := freqDetect_aux 20 0 responses (by omega)
  refine ⟨by omega, ?_⟩
  rw [hiff]
  exact ⟨fun h i hi => h i (Nat.zero_le i) hi, fun h i _ hi => h i hi⟩

/-- Every base64 digit is an alphabet character. -/
theorem isB64Char_b64char (n : ℕ) : isB64Char (b64char n) = true := by
  have hlt : n % 64 < 64 := Nat.mod_lt _ (by norm_num)
  have hall : ∀ k, k < 64 → isB64Char (b64AlphabetChars.getD k 'A') = true := by decide
  exact hall (n % 64) hlt

/-- Base64 encoding of a nonempty byte list is nonempty. -/
theorem b64encodeList_cons_ne_nil (a : ℕ) (t : List Nat) : b64encodeList (a :: t) ≠ [] := by
  match t with
  | [] => simp [b64encodeList]
  | [b] => simp [b64encodeList]
  | b :: c :: rest => simp [b64encodeList]

/-- `b64encodeList` output is always a valid base64 character string. -/
theorem b64Valid_b64encodeList : ∀ l : List Nat, b64Valid (b64encodeList l) = true
| [] => by simp [b64encodeList, b64Valid]
| [a] => by
  simp [b64encodeList, b64Valid, b64ValidTail, isB64Char_b64char]
| [a, b] => by
  simp [b64encodeList, b64Valid, b64ValidTail, isB64Char_b64char]
| a :: b :: c :: d :: rest2 => by
  have ih := b64Valid_b64encodeList (d :: rest2)
  have hne := b64encodeList_cons_ne_nil d rest2
  have hie : (b64encodeList (d :: rest2)).isEmpty = false := by
    cases hh : b64encodeList (d :: rest2) with
    | nil => exact absurd hh hne
    | cons x xs => rfl
  simp [b64encodeList, b64Valid, isB64Char_b64char, hie, ih]
| [a, b, c] => by
  simp [b64encodeList, b64Valid, b64ValidTail, isB64Char_b64char]

/-- Every hex digit produced for a nibble is a lowercase hex character. -/
theorem hexDigitChars_contains_hexDigit : ∀ k, k < 16 →
    hexDigitChars.contains (hexDigit k) = true := by decide

/-- The hex decoder inverts the digit encoding on nibbles. -/
theorem hexVal_hexDigit : ∀ k, k < 16 → hexVal (hexDigit k) = some k := by decide

/-- Hex encoding yields two characters per byte. -/
theorem hexEncodeList_length (bytes : List Nat) :
    (hexEncodeList bytes).length = 2 * bytes.length := by
  induction bytes with
  | nil => simp [hexEncodeList]
  | cons b t ih =>
    simp only [hexEncodeList, List.flatMap_cons, List.length_append, List.length_cons] at ih ⊢
    simp [toHex2, ih]
    omega

/-- Hex encoding of bytes uses only lowercase hex characters. -/
theorem hexEncodeList_all_hex (bytes : List Nat) (h : ∀ b ∈ bytes, b < 256) :
    (hexEncodeList bytes).all (fun c => hexDigitChars.contains c) = true := by
  induction bytes with
  | nil => simp [hexEncodeList]
  | cons b t ih =>
    have hb := h b (by simp)
    have hlt1 : b / 16 < 16 := by omega
    have hlt2 : b % 16 < 16 := by omega
    have ht := ih (fun x hx => h x (by simp [hx]))
    simp only [hexEncodeList] at ht ⊢
    simp only [List.flatMap_cons, List.all_append, toHex2, List.all_cons, List.all_nil,
      Bool.and_true, Bool.and_eq_true]
    exact ⟨⟨hexDigitChars_contains_hexDigit _ hlt1, hexDigitChars_contains_hexDigit _ hlt2⟩, ht⟩

/-- The hex round trip inside the IR pipeline is the identity on byte lists. -/
theorem hexDecodePairs_hexEncodeList : ∀ (bytes : List Nat), (∀ b ∈ bytes, b < 256) →
    hexDecodePairs (hexEncodeList bytes) = some bytes := by
  intro bytes
  induction bytes with
  | nil => intro _; simp [hexEncodeList, hexDecodePairs]
  | cons b t ih =>
    intro h
    have hb := h b (by simp)
    have hlt1 : b / 16 < 16 := by omega
    have hlt2 : b % 16 < 16 := by omega
    have e : hexEncodeList (b :: t) = hexDigit (b / 16) :: hexDigit (b % 16) :: hexEncodeList t := by
      simp [hexEncodeList, toHex2]
    rw [e]
    simp only [hexDecodePairs, hexVal_hexDigit _ hlt1, hexVal_hexDigit _ hlt2,
      ih (fun x hx => h x (by simp [hx]))]
    have : 16 * (b / 16) + b % 16 = b := by omega
    simp [this]

/-- The IR payload equals the straight base64 encoding of the raw bytes. -/
theorem irEncode_eq_b64 (bytes : List Nat) (h : ∀ b ∈ bytes, b < 256) :
    irEncode bytes = String.mk (b64encodeList bytes) := by
  simp [irEncode, hexDecodePairs_hexEncodeList bytes h]

/-- Analysis of the IR poll loop: a captured payload is the IR encoding of
the first nonempty data some in-deadline poll returned. -/
theorem irPollLoop_captured_aux :
    ∀ (n e : ℕ) (polls : Nat → IRPoll) (s : String), 20 - e ≤ n →
      (irPollLoop polls e).1 = .captured s →
      ∃ i bs, e ≤ i ∧ i < 20 ∧ polls i = .data bs ∧ bs ≠ [] ∧ s = irEncode bs := by
  intro n
  induction n with
  | zero =>
    intro e polls s h hc
    have he : ¬ e < 20 := by omega
    rw [irPollLoop] at hc
    simp [he] at hc
  | succ n ih =>
    intro e polls s h hc
    by_cases he : e < 20
    · rw [irPollLoop] at hc
      simp only [he, dite_true] at hc
      cases hp : polls e with
      | data bytes =>
        rw [hp] at hc
        dsimp only at hc
        cases hb : bytes.isEmpty with
        | true =>
          rw [hb] at hc
          simp only [if_true] at hc
          obtain ⟨i, bs, hei, hi, rest⟩ := ih (e + 1) polls s (by omega) hc
          exact ⟨i, bs, by omega, hi, rest⟩
        | false =>
          rw [hb] at hc
          simp only [Bool.false_eq_true, if_false] at hc
          have hbs : bytes ≠ [] := by
            intro hnil
            rw [hnil] at hb
            simp at hb
          simp only [CaptureOutcome.captured.injEq] at hc
          exact ⟨e, bytes, le_rfl, he, hp, hbs, hc.symm⟩
      | errCaught sf =>
        rw [hp] at hc
        cases sf with
        | true =>
          dsimp only at hc
          obtain ⟨i, bs, hei, hi, rest⟩ := ih (e + 1) polls s (by omega) hc
          exact ⟨i, bs, by omega, hi, rest⟩
        | false =>
          dsimp only at hc
          obtain ⟨i, bs, hei, hi, rest⟩ := ih (e + 1) polls s (by omega) hc
          exact ⟨i, bs, by omega, hi, rest⟩
      | errOther =>
        rw [hp] at hc
        simp at hc
    · rw [irPollLoop] at hc
      simp [he] at hc

/-- Analysis of the IR poll loop: if no poll raises an uncaught exception
class, the loop never raises. -/
theorem irPollLoop_no_raise_aux :
    ∀ (n e : ℕ) (polls : Nat → IRPoll), (∀ i, polls i ≠ IRPoll.errOther) → 20 - e ≤ n →
      (irPollLoop polls e).1 ≠ .raised := by
  intro n
  induction n with
  | zero =>
    intro e polls _ h
    have he : ¬ e < 20 := by omega
    rw [irPollLoop]
    simp [he]
  | succ n ih =>
    intro e polls hno h
    by_cases he : e < 20
    · rw [irPollLoop]
      simp only [he, dite_true]
      cases hp : polls e with
      | data bytes =>
        dsimp only
        cases hb : bytes.isEmpty with
        | true => simp only [if_true]; exact ih (e + 1) polls hno (by omega)
        | false => simp
      | errCaught sf =>
        cases sf with
        | true => exact ih (e + 1) polls hno (by omega)
        | false => exact ih (e + 1) polls hno (by omega)
      | errOther => exact absurd hp (hno e)
    · rw [irPollLoop]
      simp [he]

/-- Analysis of the RF poll loop: a captured payload is the plain hex
encoding of the first nonempty data some in-deadline poll returned. -/
theorem rfPollLoop_captured_aux :
    ∀ (n k : ℕ) (polls : Nat → RFPoll) (s : String), 200 - k ≤ n →
      (rfPollLoop polls k).1 = .captured s →
      ∃ i bs, k ≤ i ∧ i < 200 ∧ polls i = .data bs ∧ bs ≠ [] ∧ s = rfEncode bs := by
  intro n
  induction n with
  | zero =>
    intro k polls s h hc
    have hk : ¬ k < 200 := by omega
    rw [rfPollLoop] at hc
    simp [hk] at hc
  | succ n ih =>
    intro k polls s h hc
    by_cases hk : k < 200
    · rw [rfPollLoop] at hc
      simp only [hk, dite_true] at hc
      cases hp : polls k with
      | data bytes =>
        rw [hp] at hc
        dsimp only at hc
        cases hb : bytes.isEmpty with
        | true =>
          rw [hb] at hc
          simp only [if_true] at hc
          obtain ⟨i, bs, hki, hi, rest⟩ := ih (k + 1) polls s (by omega) hc
          exact ⟨i, bs, by omega, hi, rest⟩
        | false =>
          rw [hb] at hc
          simp only [Bool.false_eq_true, if_false] at hc
          have hbs : bytes ≠ [] := by
            intro hnil
            rw [hnil] at hb
            simp at hb
          simp only [CaptureOutcome.captured.injEq] at hc
          exact ⟨k, bytes, le_rfl, hk, hp, hbs, hc.symm⟩
      | err sf =>
        rw [hp] at hc
        cases sf with
        | true =>
          dsimp only at hc
          obtain ⟨i, bs, hki, hi, rest⟩ := ih (k + 1) polls s (by omega) hc
          exact ⟨i, bs, by omega, hi, rest⟩
        | false =>
          dsimp only at hc
          obtain ⟨i, bs, hki, hi, rest⟩ := ih (k + 1) polls s (by omega) hc
          exact ⟨i, bs, by omega, hi, rest⟩
    · rw [rfPollLoop] at hc
      simp [hk] at hc

/-- C6: for every captured byte sequence (bytes are < 256), an IR-mode
capture returns exactly the base64 encoding of the raw bytes — a valid
base64 string — while an RF-mode capture returns exactly the plain lowercase
hexadecimal encoding of the raw bytes, of even length, with no base64
wrapping; the two encodings are never unified. -/
theorem capture_payload_encodings :
    (∀ (polls : Nat → IRPoll) (e : ℕ) (s : String),
      (∀ i bs, polls i = IRPoll.data bs → ∀ b ∈ bs, b < 256) →
      (irPollLoop polls e).1 = .captured s →
      ∃ i bs, e ≤ i ∧ i < 20 ∧ polls i = .data bs ∧ bs ≠ [] ∧
        s = String.mk (b64encodeList bs) ∧ isBase64Str s = true) ∧
    (∀ (polls : Nat → RFPoll) (k : ℕ) (s : String),
      (∀ i bs, polls i = RFPoll.data bs → ∀ b ∈ bs, b < 256) →
      (rfPollLoop polls k).1 = .captured s →
      ∃ i bs, k ≤ i ∧ i < 200 ∧ polls i = .data bs ∧ bs ≠ [] ∧
        s = String.mk (hexEncodeList bs) ∧ isLowerHexEven s = true) := by
  constructor
  · intro polls e s hwf hc
    obtain ⟨i, bs, hei, hi, hpi, hbs, hs⟩ := irPollLoop_captured_aux (20 - e) e polls s le_rfl hc
    have hb : ∀ b ∈ bs, b < 256 := hwf i bs hpi
    have hs2 : s = String.mk (b64encodeList bs) := by rw [hs, irEncode_eq_b64 bs hb]
    refine ⟨i, bs, hei, hi, hpi, hbs, hs2, ?_⟩
    rw [hs2]
    exact b64Valid_b64encodeList bs
  · intro polls k s hwf hc
    obtain ⟨i, bs, hki, hi, hpi, hbs, hs⟩ := rfPollLoop_captured_aux (200 - k) k polls s le_rfl hc
    have hb : ∀ b ∈ bs, b < 256 := hwf i bs hpi
    refine ⟨i, bs, hki, hi, hpi, hbs, hs, ?_⟩
    rw [hs]
    have hlen := hexEncodeList_length bs
    have hall := hexEncodeList_all_hex bs hb
    have ht : (rfEncode bs).toList = hexEncodeList bs := rfl
    simp only [isLowerHexEven, Bool.and_eq_true, ht]
    constructor
    · rw [hlen]
      simp [Nat.mul_mod_right]
    · exact hall

/-- Witness for `capture_payload_encodings`: an adapter that returns the
bytes `[38, 216]` on the first poll in each mode. -/
theorem capture_payload_encodings_witness :
    ((irPollLoop (fun _ => IRPoll.data [38, 216]) 0).1
        = CaptureOutcome.captured (irEncode [38, 216])) ∧
    (∃ i bs, 0 ≤ i ∧ i < 20 ∧ (fun _ => IRPoll.data [38, 216]) i = IRPoll.data bs ∧ bs ≠ [] ∧
      irEncode [38, 216] = String.mk (b64encodeList bs) ∧ isBase64Str (irEncode [38, 216]) = true) ∧
    ((rfPollLoop (fun _ => RFPoll.data [38, 216]) 0).1
        = CaptureOutcome.captured (rfEncode [38, 216])) ∧
    (∃ i bs, 0 ≤ i ∧ i < 200 ∧ (fun _ => RFPoll.data [38, 216]) i = RFPoll.data bs ∧ bs ≠ [] ∧
      rfEncode [38, 216] = String.mk (hexEncodeList bs) ∧
      isLowerHexEven (rfEncode [38, 216]) = true) := by
  have hir : (irPollLoop (fun _ => IRPoll.data [38, 216]) 0).1
      = CaptureOutcome.captured (irEncode [38, 216]) := by
    rw [irPollLoop]
    norm_num
  have hrf : (rfPollLoop (fun _ => RFPoll.data [38, 216]) 0).1
      = CaptureOutcome.captured (rfEncode [38, 216]) := by
    rw [rfPollLoop]
    norm_num
  refine ⟨hir, ?_, hrf, ?_⟩
  · exact capture_payload_encodings.1 (fun _ => IRPoll.data [38, 216]) 0 (irEncode [38, 216])
      (fun i bs hbs => by simp at hbs; rw [← hbs]; decide) hir
  · exact capture_payload_encodings.2 (fun _ => RFPoll.data [38, 216]) 0 (rfEncode [38, 216])
      (fun i bs hbs => by simp at hbs; rw [← hbs]; decide) hrf

/-- C3 counterexample: the IR poll loop's handler catches only `ReadError`
and `StorageError`; an adapter error of any other class (e.g. a
transport/auth failure) on the first poll escapes the capture attempt even
though valid data would arrive on the next poll — contradicting the claim
that no adapter error raised by a poll terminates or escapes the capture. -/
theorem ir_uncaught_error_escapes :
    (irPollLoop (fun i => if i = 0 then IRPoll.errOther else IRPoll.data [38]) 0).1
      = CaptureOutcome.raised := by
  rw [irPollLoop]
  norm_num

/-- C3 (amended): in IR capture mode, a "storage is full" `ReadError` /
`StorageError` during a poll is silently ignored and polling continues; any
other `ReadError` or `StorageError` is logged (its poll index is recorded)
and polling likewise continues until the 20-second deadline; and as long as
every poll error is of those two caught classes, the capture attempt never
raises.  (Adapter errors outside those classes propagate, see the
counterexample.) -/
theorem ir_caught_errors_continue :
    (∀ (polls : Nat → IRPoll) (e : ℕ),
      (∀ i, polls i ≠ IRPoll.errOther) → (irPollLoop polls e).1 ≠ .raised) ∧
    (∀ (polls : Nat → IRPoll) (e : ℕ), e < 20 → polls e = IRPoll.errCaught true →
      irPollLoop polls e = irPollLoop polls (e + 1)) ∧
    (∀ (polls : Nat → IRPoll) (e : ℕ), e < 20 → polls e = IRPoll.errCaught false →
      irPollLoop polls e
        = ((irPollLoop polls (e + 1)).1, e :: (irPollLoop polls (e + 1)).2)) := by
  refine ⟨?_, ?_, ?_⟩
  · intro polls e hno
    exact irPollLoop_no_raise_aux (20 - e) e polls hno le_rfl
  · intro polls e he hp
    conv_lhs => rw [irPollLoop]
    simp [he, hp]
  · intro polls e he hp
    conv_lhs => rw [irPollLoop]
    simp [he, hp]

/-- Witness for `ir_caught_errors_continue`: "storage is full" on the first
five polls, then data on poll six — the capture does not raise, the
storage-full polls are absorbed without log entries, and the result is the
poll-six payload. -/
theorem ir_caught_errors_continue_witness :
    ((irPollLoop (fun i => if i < 5 then IRPoll.errCaught true else IRPoll.data [38, 216]) 0).1
        ≠ CaptureOutcome.raised) ∧
    (irPollLoop (fun i => if i < 5 then IRPoll.errCaught true else IRPoll.data [38, 216]) 0
      = irPollLoop (fun i => if i < 5 then IRPoll.errCaught true else IRPoll.data [38, 216]) 1) ∧
    (irPollLoop (fun i => if i < 5 then IRPoll.errCaught true else IRPoll.data [38, 216]) 0
      = (CaptureOutcome.captured (irEncode [38, 216]), [])) := by
  refine ⟨?_, ?_, ?_⟩
  · exact ir_caught_errors_continue.1
      (fun i => if i < 5 then IRPoll.errCaught true else IRPoll.data [38, 216]) 0
      (fun i => by by_cases h : i < 5 <;> simp [h])
  · exact ir_caught_errors_continue.2.1
      (fun i => if i < 5 then IRPoll.errCaught true else IRPoll.data [38, 216]) 0
      (by norm_num) (by norm_num)
  · rw [irPollLoop]
    norm_num
    rw [irPollLoop]
    norm_num
    rw [irPollLoop]
    norm_num
    rw [irPollLoop]
    norm_num
    rw [irPollLoop]
    norm_num
    rw [irPollLoop]
    norm_num

/-- Python `int()` agrees with the value on nonnegative integral rationals. -/
theorem pyInt_natCast (c : ℕ) : pyInt ((c : ℕ) : ℚ) = (c : ℤ) := by
  have h0 : (0 : ℚ) ≤ ((c : ℕ) : ℚ) := Nat.cast_nonneg c
  rw [pyInt, if_pos h0, floorQ, Rat.num_natCast, Rat.den_natCast, Nat.cast_one]
  exact Int.fdiv_one _

/-- C8: for integers tempMin ≤ tempMax and precision 1.0 or 0.5, the climate
temperature list has exactly `floor((tempMax - tempMin)/precision) + 1`
entries, the i-th entry is `tempMin + precision * i`, and every integral
entry is rendered as a plain integer slot key (no trailing fractional
zero). -/
theorem climate_temperature_steps :
    ∀ (tempMin tempMax : ℕ) (precision : ℚ), tempMin ≤ tempMax →
      (precision = 1 ∨ precision = 1 / 2) →
      ((climateTemps tempMin tempMax precision).length : ℤ)
          = Int.floor ((((tempMax : ℕ) : ℚ) - ((tempMin : ℕ) : ℚ)) / precision) + 1 ∧
      (∀ i, i < (climateTemps tempMin tempMax precision).length →
        (climateTemps tempMin tempMax precision)[i]?
          = some (((tempMin : ℕ) : ℚ) + precision * (i : ℕ))) ∧
      (∀ q : ℚ, q.den = 1 → renderTemp q = toString q.num) := by
  intro tempMin tempMax precision h hp
  have key : ∃ c : ℕ, (((tempMax : ℕ) : ℚ) - ((tempMin : ℕ) : ℚ)) / precision = ((c : ℕ) : ℚ) := by
    rcases hp with rfl | rfl
    · exact ⟨tempMax - tempMin, by rw [div_one, Nat.cast_sub h]⟩
    · refine ⟨2 * (tempMax - tempMin), ?_⟩
      rw [div_eq_iff (by norm_num : (1 : ℚ) / 2 ≠ 0)]
      push_cast [Nat.cast_sub h]
      ring
  obtain ⟨c, hc⟩ := key
  have hlen : (climateTemps tempMin tempMax precision).length = c + 1 := by
    rw [climateTemps, List.length_map, List.length_range, hc, pyInt_natCast]
    omega
  refine ⟨?_, ?_, ?_⟩
  · rw [hlen, hc, Int.floor_natCast]
    push_cast
    ring
  · intro i hi
    rw [climateTemps] at hi ⊢
    rw [List.length_map, List.length_range] at hi
    simp [List.getElem?_map, List.getElem?_range, hi]
  · intro q hq
    simp [renderTemp, hq]

/-- Witness for `climate_temperature_steps`: the spec\'s own example —
min 16, max 30, precision 1.0 — yields 15 temperature slots. -/
theorem climate_temperature_steps_witness :
    ((16 : ℕ) ≤ 30 ∧ ((1 : ℚ) = 1 ∨ (1 : ℚ) = 1 / 2)) ∧
    (climateTemps 16 30 1).length = 15 := by
  refine ⟨⟨by norm_num, Or.inl rfl⟩, ?_⟩
  have h1 := (climate_temperature_steps 16 30 1 (by norm_num) (Or.inl rfl)).1
  norm_num at h1
  omega
